import Mathlib

/-!
Verification of the confidential submission pipeline of the CollegeApplPortal
repository: admin authentication and rate limiting (backend/utils/auth.js),
input validation (backend/utils/validation.js), the admin decryption
orchestrator and analytics (backend/controllers/adminController.js,
backend/controllers/applicationController.js, backend/routes/adminRoutes.js),
and the file-backed submission store (server/storage.ts, server/routes.ts).
JavaScript is embedded shallowly: numbers that are integral epoch
milliseconds become Nat or Int, GPA arithmetic becomes exact unreduced
fractions, JS truthiness of a string value is the test against the empty
string, and fallible calls return Option.
-/

/-! ## Rate limiter (backend/utils/auth.js, adminRateLimit) -/

/-- Outcome of one adminRateLimit check.  On rejection the middleware answers
HTTP 429 and does not write the store back. -/
inductive RateOutcome where
  | allowed (window : List Nat)
  | rateLimited (status : Nat)
deriving DecidableEq, Repr

/-- Embeds adminRateLimit from backend/utils/auth.js lines 105-134: entries
older than 60000 ms are filtered out, the request is rejected when ten or
more recent entries remain, otherwise the current time is appended.
Truncated Nat subtraction agrees with the JS comparison now - time < 60000
also when time exceeds now (both keep the entry). -/
def adminRateLimit (requests : List Nat) (now : Nat) : RateOutcome :=
  let recentRequests := requests.filter (fun t => now - t < 60000)
  if 10 ≤ recentRequests.length then .rateLimited 429
  else .allowed (recentRequests ++ [now])

/-- One step of the rate limiter acting on the stored window of a single
caller: on rejection the store keeps the old list because the code returns
before global.rateLimitStore.set runs. -/
def rlStep (w : List Nat) (now : Nat) : Bool × List Nat :=
  match adminRateLimit w now with
  | .allowed w2 => (true, w2)
  | .rateLimited _ => (false, w)

/-- Runs a sequence of requests of one caller through the rate limiter,
returning the decisions in order and the final stored window. -/
def rlRun (w : List Nat) : List Nat → List Bool × List Nat
  | [] => ([], w)
  | t :: ts =>
    let s := rlStep w t
    let rest := rlRun s.2 ts
    (s.1 :: rest.1, rest.2)

/-- Two request timestamps that fall inside one sliding window: the earlier
is at most the later and their distance is below 60000 ms. -/
def WithinWindow (a b : Nat) : Prop := a ≤ b ∧ b - a < 60000

instance : DecidableRel WithinWindow :=
  fun a b => inferInstanceAs (Decidable (a ≤ b ∧ b - a < 60000))

/-! ## Admin authentication (backend/utils/auth.js) -/

/-- The admin request fields the authentication middleware reads: the
Authorization header and the token query parameter. -/
structure AdminRequest where
  authHeader : Option String
  tokenQuery : Option String

/-- The fallback admin token from backend/utils/auth.js line 21. -/
def defaultAdminToken : String := "admin-demo-token-2024"

/-- Embeds process.env.ADMIN_TOKEN with its JS default: an unset or empty
environment value falls back to the demo token. -/
def adminTokenConfig (envToken : Option String) : String :=
  match envToken with
  | some s => if s = "" then defaultAdminToken else s
  | none => defaultAdminToken

/-- Token extraction of authenticateAdmin (auth.js lines 34-44): a header
starting with the Bearer scheme wins, otherwise the query parameter; the
empty string stands for the JS null token (both are falsy there). -/
def extractToken (req : AdminRequest) : String :=
  match req.authHeader with
  | some h =>
    if "Bearer ".data.isPrefixOf h.data then String.mk (h.data.drop 7)
    else req.tokenQuery.getD ""
  | none => req.tokenQuery.getD ""

/-- Embeds validateAdminToken (auth.js lines 15-24): a falsy token is
invalid, otherwise strict equality with the configured token. -/
def validateAdminToken (token : String) (validToken : String) : Bool :=
  if token = "" then false else token == validToken

/-- Result of the authentication middleware: an early HTTP response or
passing control to the next handler. -/
inductive AuthResult where
  | response (status : Nat)
  | proceed
deriving DecidableEq, Repr

/-- Embeds authenticateAdmin (auth.js lines 32-71): 401 when no token was
extracted, 403 when the token does not validate, otherwise proceed (the
middleware sets req.isAdmin so the subsequent requireAdmin check passes). -/
def authenticateAdmin (validToken : String) (req : AdminRequest) : AuthResult :=
  let token := extractToken req
  if token = "" then .response 401
  else if validateAdminToken token validToken then .proceed
  else .response 403

/-! ## Input validation (backend/utils/validation.js) -/

/-- Consumes exactly n hex digits, returning the rest of the characters. -/
def hexRun : Nat → List Char → Option (List Char)
  | 0, rest => some rest
  | _ + 1, [] => none
  | n + 1, c :: rest =>
    if c.isDigit || ('a' ≤ c && c ≤ 'f') || ('A' ≤ c && c ≤ 'F') then hexRun n rest
    else none

/-- Consumes a literal dash. -/
def expectDash : List Char → Option (List Char)
  | '-' :: r => some r
  | _ => none

/-- Consumes the UUID version digit 1-5 (case-insensitive regex, but the
class is digits only). -/
def expectVersion : List Char → Option (List Char)
  | c :: r => if '1' ≤ c && c ≤ '5' then some r else none
  | [] => none

/-- Consumes the UUID variant character 8, 9, a or b, case-insensitively. -/
def expectVariant : List Char → Option (List Char)
  | c :: r =>
    if c = '8' || c = '9' || c = 'a' || c = 'b' || c = 'A' || c = 'B' then some r
    else none
  | [] => none

/-- Embeds isValidUuid (validation.js lines 125-128), the anchored
8-4-4-4-12 hex pattern with version and variant classes. -/
def isValidUuid (s : String) : Bool :=
  ((((((((((hexRun 8 s.data).bind expectDash).bind (hexRun 4)).bind
    expectDash).bind expectVersion).bind (hexRun 3)).bind expectDash).bind
    expectVariant).bind (hexRun 3)).bind expectDash).bind (hexRun 12) == some []

/-- Embeds validateApplicationId (validation.js lines 152-165): the id must
be present and a well-formed UUID. -/
def validateApplicationId (id : String) : Bool :=
  if id = "" then false else isValidUuid id

/-- Exact rational value of a JS number, kept as an unreduced fraction so
that every arithmetic step is kernel-computable; the denominator is always
positive by construction (a power of ten). -/
structure Frac where
  num : Int
  den : Nat
deriving DecidableEq, Repr

/-- A fraction from an integer. -/
def Frac.ofInt (n : Int) : Frac := ⟨n, 1⟩

/-- Comparison of fractions with positive denominators by cross
multiplication. -/
def Frac.le (a b : Frac) : Bool := decide (a.num * (b.den : Int) ≤ b.num * (a.den : Int))

/-- Addition on unreduced fractions. -/
def Frac.add (a b : Frac) : Frac := ⟨a.num * b.den + b.num * a.den, a.den * b.den⟩

/-- Division of a fraction by a natural number. -/
def Frac.divNat (a : Frac) (n : Nat) : Frac := ⟨a.num, a.den * n⟩

/-- Splits the longest prefix of decimal digits from a character list. -/
def takeDigits : List Char → List Char × List Char
  | [] => ([], [])
  | c :: cs =>
    if c.isDigit then
      let p := takeDigits cs
      (c :: p.1, p.2)
    else ([], c :: cs)

/-- Decimal value of a digit list. -/
def digitsVal (ds : List Char) : Nat :=
  ds.foldl (fun a c => 10 * a + (c.toNat - 48)) 0

/-- Model of the JS parseFloat builtin on the decimal grammar it accepts:
optional leading whitespace, optional sign, digits with an optional dot and
fraction, and an optional exponent whose digits may be absent (then it is
ignored, as in JS).  none plays the role of NaN.  The special Infinity
literals are not modelled; they fail the range check below exactly as the
unparsed strings do, so every verdict of isValidGpa is preserved. -/
def jsParseFloat (s : String) : Option Frac :=
  let cs := s.data.dropWhile (fun c => c == ' ' || c == '\t' || c == '\n' || c == '\r')
  let signRest : Int × List Char :=
    match cs with
    | '-' :: r => (-1, r)
    | '+' :: r => (1, r)
    | r => (1, r)
  let ipRest := takeDigits signRest.2
  let fpRest : List Char × List Char :=
    match ipRest.2 with
    | '.' :: r => takeDigits r
    | r => ([], r)
  if ipRest.1.isEmpty && fpRest.1.isEmpty then none
  else
    let mantNum : Int := (digitsVal ipRest.1 : Int) * (10 : Int) ^ fpRest.1.length + digitsVal fpRest.1
    let mantDen : Nat := 10 ^ fpRest.1.length
    let exp : Int :=
      match fpRest.2 with
      | 'e' :: r | 'E' :: r =>
        match r with
        | '-' :: r2 => if (takeDigits r2).1.isEmpty then 0 else -(digitsVal (takeDigits r2).1 : Int)
        | '+' :: r2 => if (takeDigits r2).1.isEmpty then 0 else (digitsVal (takeDigits r2).1 : Int)
        | r2 => if (takeDigits r2).1.isEmpty then 0 else (digitsVal (takeDigits r2).1 : Int)
      | _ => 0
    if 0 ≤ exp then some ⟨signRest.1 * mantNum * (10 : Int) ^ exp.toNat, mantDen⟩
    else some ⟨signRest.1 * mantNum, mantDen * 10 ^ (-exp).toNat⟩

/-- Embeds isValidGpa (validation.js lines 99-102): parseFloat must yield a
number (not NaN) between 0.0 and 4.0 inclusive. -/
def isValidGpa (gpa : String) : Bool :=
  match jsParseFloat gpa with
  | none => false
  | some q => (Frac.ofInt 0).le q && q.le (Frac.ofInt 4)

/-- JS truthiness of an optional string field: absent and empty are falsy. -/
def jsTruthy (o : Option String) : Bool :=
  match o with
  | none => false
  | some s => s ≠ ""

/-- Length of a string after the JS trim. -/
def jsTrimLength (s : String) : Nat :=
  let ws := fun c : Char => c == ' ' || c == '\t' || c == '\n' || c == '\r'
  ((s.data.dropWhile ws).reverse.dropWhile ws).length

/-- Embeds isValidEmail (validation.js lines 77-80).  The anchored regex
admits exactly the strings with no whitespace, exactly one at-sign, a
nonempty local part, and a dot in the domain that is neither its first nor
its last character. -/
def isValidEmail (email : String) : Bool :=
  let cs := email.data
  let noWsAt := fun l : List Char => l.all fun c =>
    !(c == ' ' || c == '\t' || c == '\n' || c == '\r')
  match cs.splitOn '@' with
  | [a, b] =>
    noWsAt a && noWsAt b && !a.isEmpty &&
      ((b.drop 1).dropLast.contains '.')
  | _ => false

/-- Embeds isValidPhone (validation.js lines 87-92): between 10 and 15
digits after stripping every non-digit. -/
def isValidPhone (phone : String) : Bool :=
  let digits := phone.data.filter Char.isDigit
  10 ≤ digits.length && digits.length ≤ 15

/-- The submission body fields validateApplicationData reads.  Every value
is a string when present, so the typeof guards of the source can never
fire in the embedding. -/
structure SubmissionData where
  encryptedData : Option String
  iv : Option String
  name : Option String
  email : Option String
  phone : Option String
  course : Option String
  department : Option String
  gpa : Option String
  documentName : Option String

/-- Validation verdict of validateApplicationData. -/
structure ValidationResult where
  isValid : Bool
  errors : List String
deriving DecidableEq, Repr

/-- Embeds validateApplicationData (validation.js lines 15-70), pushing the
error messages in source order; a check on an optional field runs only when
the field is truthy. -/
def validateApplicationData (data : SubmissionData) : ValidationResult :=
  let errors :=
    (if !jsTruthy data.encryptedData then ["Encrypted data is required"] else []) ++
    (if !jsTruthy data.iv then ["Initialization vector (IV) is required"] else []) ++
    (if jsTruthy data.name && decide (jsTrimLength (data.name.getD "") < 2) then
      ["Name must be at least 2 characters long"] else []) ++
    (if jsTruthy data.email && !isValidEmail (data.email.getD "") then
      ["Invalid email format"] else []) ++
    (if jsTruthy data.phone && !isValidPhone (data.phone.getD "") then
      ["Invalid phone number format"] else []) ++
    (if jsTruthy data.course && decide (jsTrimLength (data.course.getD "") < 2) then
      ["Course must be at least 2 characters long"] else []) ++
    (if jsTruthy data.department && decide (jsTrimLength (data.department.getD "") < 2) then
      ["Department must be at least 2 characters long"] else []) ++
    (if jsTruthy data.gpa && !isValidGpa (data.gpa.getD "") then
      ["GPA must be between 0.0 and 4.0"] else [])
  { isValid := errors.isEmpty, errors := errors }

/-- A submission body that carries only ciphertext, nonce and a gpa value,
as the gpa boundary scenario submits. -/
def gpaOnlyData (gpa : Option String) : SubmissionData :=
  { encryptedData := some "ZW5jcnlwdGVk", iv := some "aXZpdml2aXZpdg==",
    name := none, email := none, phone := none, course := none,
    department := none, gpa := gpa, documentName := none }

/-! ## Submission store (server/storage.ts) and creation route
(server/routes.ts) -/

/-- A persisted record of the file-backed store: schema.ts applications
table, with submittedAt as epoch milliseconds. -/
structure StoredApplication where
  id : String
  encryptedData : String
  iv : String
  submittedAt : Nat
deriving DecidableEq, Repr

/-- The validated insert payload (insertApplicationSchema picks
encryptedData and iv). -/
structure InsertApplication where
  encryptedData : String
  iv : String
deriving DecidableEq, Repr

/-- Embeds FileStorage.createApplication (storage.ts lines 80-102): the id
and timestamp are generated at creation (passed in here, standing for
randomUUID and new Date), ciphertext and iv are stored verbatim from the
insert payload. -/
def createApplication (freshId : String) (nowMs : Nat)
    (insertApp : InsertApplication) : StoredApplication :=
  { id := freshId, encryptedData := insertApp.encryptedData,
    iv := insertApp.iv, submittedAt := nowMs }

/-- The request body of POST /api/applications before validation. -/
structure PostBody where
  encryptedData : Option String
  iv : Option String

/-- Response of the creation route. -/
inductive PostResult where
  | badRequest (status : Nat)
  | created (status : Nat) (application : StoredApplication)
deriving DecidableEq, Repr

/-- Embeds POST /api/applications (server/routes.ts lines 190-239): zod
requires both strings, the additional truthiness guard rejects empty ones,
then the store persists the caller-supplied ciphertext and iv. -/
def postApplication (freshId : String) (nowMs : Nat) (body : PostBody) : PostResult :=
  match body.encryptedData, body.iv with
  | some ed, some iv =>
    if ed = "" || iv = "" then .badRequest 400
    else .created 201 (createApplication freshId nowMs { encryptedData := ed, iv := iv })
  | _, _ => .badRequest 400

/-- Stable insertion of one application into a list sorted by submittedAt
descending: the element is placed after every entry with a strictly later
timestamp and before ties, which is where the stable JS sort of
storage.ts line 109-111 leaves an element that came earlier in insertion
order. -/
def insertByTime (x : StoredApplication) : List StoredApplication → List StoredApplication
  | [] => [x]
  | y :: ys =>
    if x.submittedAt < y.submittedAt then y :: insertByTime x ys
    else x :: y :: ys

/-- The stable descending sort performed by
Array.from(map.values()).sort((a, b) => b.submittedAt - a.submittedAt). -/
def sortByTimeDesc : List StoredApplication → List StoredApplication
  | [] => []
  | x :: xs => insertByTime x (sortByTimeDesc xs)

/-- Embeds FileStorage.getAllApplications (storage.ts lines 107-112) on the
in-memory collection taken in insertion order. -/
def getAllApplications (apps : List StoredApplication) : List StoredApplication :=
  sortByTimeDesc apps

/-! ## Decryption orchestrator (backend/controllers/adminController.js) and
batch route (backend/routes/adminRoutes.js) -/

/-- A row of the Applications table as azureSqlService returns it. -/
structure DbApplication where
  id : String
  name : String
  email : String
  phone : String
  course : String
  department : String
  gpa : String
  document_name : String
  encrypted_data : Option String
  iv : String
  created_at : Int
deriving DecidableEq, Repr

/-- The response of AdminController.decryptApplication.  Every branch of
the controller writes a response through res and returns; the surrounding
try/catch turns any thrown error into the 500 branch, so the function never
rejects. -/
inductive DecryptResult where
  | notFound
  | noEncryptedData
  | decryptFailed
  | parseFailed
  | ok (view : List (String × String))
deriving DecidableEq, Repr

/-- HTTP status of each controller response branch. -/
def DecryptResult.status : DecryptResult → Nat
  | .notFound => 404
  | .noEncryptedData => 400
  | .decryptFailed => 500
  | .parseFailed => 500
  | .ok _ => 200

/-- The success payload of adminController.js lines 62-77: the cleartext
metadata columns merged with the decrypted structured data, keyed exactly
as the source object literal.  Neither encrypted_data nor iv is copied. -/
def decryptedView (application : DbApplication)
    (decryptedApplicationData : String) : List (String × String) :=
  [("id", application.id),
   ("name", application.name),
   ("email", application.email),
   ("phone", application.phone),
   ("course", application.course),
   ("department", application.department),
   ("gpa", application.gpa),
   ("documentName", application.document_name),
   ("createdAt", toString application.created_at),
   ("decryptedData", decryptedApplicationData)]

/-- Embeds AdminController.decryptApplication (adminController.js lines
21-86).  The store lookup, the key-vault decrypt and JSON.parse are the
three fallible collaborators; a falsy encrypted_data column answers 400. -/
def decryptApplication (store : String → Option DbApplication)
    (kv : String → Option String) (jsonParse : String → Option String)
    (id : String) : DecryptResult :=
  match store id with
  | none => .notFound
  | some application =>
    match application.encrypted_data with
    | none => .noEncryptedData
    | some ed =>
      if ed = "" then .noEncryptedData
      else
        match kv ed with
        | none => .decryptFailed
        | some decryptedText =>
          match jsonParse decryptedText with
          | none => .parseFailed
          | some d => .ok (decryptedView application d)

/-- A settled promise as Promise.allSettled reports it. -/
inductive Settled (α : Type) where
  | fulfilled (value : α)
  | rejected (reason : String)
deriving DecidableEq, Repr

/-- Whether a settled result is fulfilled. -/
def Settled.isFulfilled : Settled α → Bool
  | .fulfilled _ => true
  | .rejected _ => false

/-- One id of the batch: the route calls decryptApplication with a stub
res whose writes are discarded; since the controller catches every error
and reports through res, the promise always fulfills (in the source its
value is the undefined return of the controller; the embedding keeps the
response the controller wrote into the stub, which the route never reads). -/
def settleDecrypt (store : String → Option DbApplication)
    (kv : String → Option String) (jsonParse : String → Option String)
    (id : String) : Settled DecryptResult :=
  .fulfilled (decryptApplication store kv jsonParse id)

/-- The counts object of the batch response (adminRoutes.js lines 148-158). -/
structure BatchCounts where
  successful : Nat
  failed : Nat
  total : Nat
deriving DecidableEq, Repr

/-- The settled per-id results of POST /api/admin/decrypt-batch
(adminRoutes.js lines 132-137). -/
def decryptBatchResults (store : String → Option DbApplication)
    (kv : String → Option String) (jsonParse : String → Option String)
    (applicationIds : List String) : List (Settled DecryptResult) :=
  applicationIds.map (settleDecrypt store kv jsonParse)

/-- Embeds the counting of adminRoutes.js lines 140-154: fulfilled results
are the successes, rejected ones the failures, total is the input length. -/
def decryptBatch (store : String → Option DbApplication)
    (kv : String → Option String) (jsonParse : String → Option String)
    (applicationIds : List String) : BatchCounts :=
  let results := decryptBatchResults store kv jsonParse applicationIds
  { successful := (results.filter (fun r => r.isFulfilled)).length,
    failed := (results.filter (fun r => !r.isFulfilled)).length,
    total := applicationIds.length }

/-- The full admin decrypt pipeline of adminRoutes.js: authenticateAdmin,
requireAdmin (passes whenever authentication proceeded, because the
middleware set req.isAdmin), adminRateLimit, id validation, then the
controller.  Returns the HTTP status and whether decryption was attempted
(the store read and key-provider call happen only inside the controller). -/
def adminDecryptPipeline (validToken : String) (req : AdminRequest)
    (window : List Nat) (now : Nat) (store : String → Option DbApplication)
    (kv : String → Option String) (jsonParse : String → Option String)
    (appId : String) : Nat × Bool :=
  match authenticateAdmin validToken req with
  | .response s => (s, false)
  | .proceed =>
    match adminRateLimit window now with
    | .rateLimited s => (s, false)
    | .allowed _ =>
      if validateApplicationId appId then
        ((decryptApplication store kv jsonParse appId).status, true)
      else (400, false)

/-! ## Analytics (backend/controllers/applicationController.js,
getApplicationStats) -/

/-- The gpaDistribution buckets of getApplicationStats. -/
structure GpaDistribution where
  high : Nat
  medium : Nat
  low : Nat
deriving DecidableEq, Repr

/-- The statistics object of getApplicationStats.  averageGpa is kept as
the exact rational mean; the source formats it with toFixed(2) for the
response, which is presentation only. -/
structure ApplicationStats where
  totalApplications : Nat
  departments : List (String × Nat)
  gpaDistribution : GpaDistribution
  averageGpa : Frac
  recentApplications : Nat
deriving DecidableEq, Repr

/-- Increment of a department counter, preserving the JS object key
insertion order. -/
def bumpDept (k : String) : List (String × Nat) → List (String × Nat)
  | [] => [(k, 1)]
  | (k2, n) :: rest =>
    if k2 = k then (k2, n + 1) :: rest else (k2, n) :: bumpDept k rest

/-- Embeds parseFloat(app.gpa) || 0 of applicationController.js line 293:
NaN falls back to 0 (a parsed 0 is falsy too, with the same result). -/
def gpaOf (app : DbApplication) : Frac :=
  match jsParseFloat app.gpa with
  | none => Frac.ofInt 0
  | some q => q

/-- The department grouping accumulated by the forEach of
getApplicationStats, with the falsy-department fallback to Unknown. -/
def statsDepartments (apps : List DbApplication) : List (String × Nat) :=
  apps.foldl
    (fun m app => bumpDept (if app.department = "" then "Unknown" else app.department) m) []

/-- The gpa buckets of getApplicationStats lines 296-298: high at 3.5 and
above, medium at 3.0 and above, low below. -/
def statsGpaDistribution (apps : List DbApplication) : GpaDistribution :=
  apps.foldl
    (fun d app =>
      let g := gpaOf app
      if Frac.le ⟨7, 2⟩ g then { d with high := d.high + 1 }
      else if Frac.le (Frac.ofInt 3) g then { d with medium := d.medium + 1 }
      else { d with low := d.low + 1 })
    ⟨0, 0, 0⟩

/-- The running GPA total of getApplicationStats. -/
def statsTotalGpa (apps : List DbApplication) : Frac :=
  apps.foldl (fun t app => t.add (gpaOf app)) (Frac.ofInt 0)

/-- Embeds ApplicationController.getApplicationStats (lines 269-324) as a
function of the record sequence and of the clock value Date.now() the
source reads: counters over index columns, plus the count of records whose
created_at lies after now minus one week (604800000 ms). -/
def getApplicationStats (applications : List DbApplication) (nowMs : Int) : ApplicationStats :=
  { totalApplications := applications.length,
    departments := statsDepartments applications,
    gpaDistribution := statsGpaDistribution applications,
    averageGpa :=
      if 0 < applications.length then (statsTotalGpa applications).divNat applications.length
      else Frac.ofInt 0,
    recentApplications :=
      (applications.filter (fun app => nowMs - 604800000 < app.created_at)).length }

/-! ## Concrete instances used by counterexamples and witnesses -/

/-- A stored row with the given id and ciphertext and fixed index fields. -/
def mkDbApp (i : String) (ed : String) : DbApplication :=
  { id := i, name := "Ada", email := "ada@example.com", phone := "1234567890",
    course := "CS", department := "Eng", gpa := "3.9", document_name := "doc.pdf",
    encrypted_data := some ed, iv := "aXY=", created_at := 0 }

/-- A five-row store in which the third ciphertext is corrupted. -/
def c1Store : String → Option DbApplication := fun id =>
  if id = "a1" then some (mkDbApp "a1" "E1")
  else if id = "a2" then some (mkDbApp "a2" "E2")
  else if id = "a3" then some (mkDbApp "a3" "CORRUPT")
  else if id = "a4" then some (mkDbApp "a4" "E4")
  else if id = "a5" then some (mkDbApp "a5" "E5")
  else none

/-- A key provider whose tag verification fails exactly on the corrupted
ciphertext. -/
def c1Kv : String → Option String := fun c =>
  if c = "CORRUPT" then none else some (String.mk ('P' :: c.data))

/-- A JSON parser that accepts every recovered plaintext. -/
def c1Parse : String → Option String := fun s => some s

/-- A single decryptable row for the view witness. -/
def c7App : DbApplication := mkDbApp "a" "E"

/-- A one-row store holding c7App. -/
def c7Store : String → Option DbApplication := fun i =>
  if i = "a" then some c7App else none

/-- A key provider that recovers the fixed plaintext P. -/
def c7Kv : String → Option String := fun _ => some "P"

/-- A JSON parser that accepts every recovered plaintext. -/
def c7Parse : String → Option String := fun s => some s

/-- A single analytics row submitted at epoch millisecond 100. -/
def c9App : DbApplication := { mkDbApp "x" "E" with created_at := 100 }

/-! ## General helper lemmas -/

theorem length_filter_add_length_filter_not (p : α → Bool) (l : List α) :
    (l.filter p).length + (l.filter (fun a => !p a)).length = l.length := by
  induction l with
  | nil => simp
  | cons a l ih =>
    by_cases h : p a = true <;> simp [List.filter, h] <;> omega

/-! ## Rate limiter lemmas -/

theorem rlStep_allowed_of_small (w : List Nat) (now : Nat)
    (hin : ∀ t ∈ w, now - t < 60000) (hlen : w.length < 10) :
    rlStep w now = (true, w ++ [now]) := by
  have hfilter : w.filter (fun t => now - t < 60000) = w := by
    rw [List.filter_eq_self]
    intro a ha
    simpa using hin a ha
  simp only [rlStep, adminRateLimit, hfilter]
  rw [if_neg (by omega)]

theorem rlRun_admits : ∀ (ts w : List Nat),
    List.Pairwise WithinWindow (w ++ ts) → w.length + ts.length ≤ 10 →
    rlRun w ts = (List.replicate ts.length true, w ++ ts)
  | [], w, _, _ => by simp [rlRun]
  | t :: ts, w, hpw, hlen => by
    have hwt : ∀ s ∈ w, WithinWindow s t := by
      intro s hs
      exact (List.pairwise_append.mp hpw).2.2 s hs t (by simp)
    have hstep : rlStep w t = (true, w ++ [t]) := by
      refine rlStep_allowed_of_small w t (fun s hs => (hwt s hs).2) ?_
      have := hlen
      simp at this ⊢
      omega
    have hpw2 : List.Pairwise WithinWindow ((w ++ [t]) ++ ts) := by
      rw [List.append_assoc]
      simpa using hpw
    have hrec := rlRun_admits ts (w ++ [t]) hpw2 (by simp at hlen ⊢; omega)
    simp only [rlRun, hstep, hrec, List.length_cons, List.replicate_succ,
      List.append_assoc, List.singleton_append]

theorem rlStep_fst_iff (w : List Nat) (now : Nat) :
    (rlStep w now).1 = true ↔ (w.filter (fun t => now - t < 60000)).length < 10 := by
  rcases Nat.lt_or_ge (w.filter (fun t => now - t < 60000)).length 10 with h | h
  · have hn : ¬ 10 ≤ (w.filter (fun t => now - t < 60000)).length := by omega
    simp [rlStep, adminRateLimit, hn, h]
  · have hp : 10 ≤ (w.filter (fun t => now - t < 60000)).length := h
    simp [rlStep, adminRateLimit, hp]


theorem rlRun_append (w l1 l2 : List Nat) :
    rlRun w (l1 ++ l2) =
      ((rlRun w l1).1 ++ (rlRun (rlRun w l1).2 l2).1, (rlRun (rlRun w l1).2 l2).2) := by
  induction l1 generalizing w with
  | nil => simp [rlRun]
  | cons t l1 ih => simp [rlRun, ih]

theorem rlStep_length_le (w : List Nat) (now : Nat) (h : w.length ≤ 10) :
    ((rlStep w now).2).length ≤ 10 := by
  by_cases hc : 10 ≤ (w.filter (fun t => now - t < 60000)).length
  · simpa [rlStep, adminRateLimit, hc] using h
  · simp [rlStep, adminRateLimit, hc]
    omega

theorem rlRun_length_le : ∀ (ts w : List Nat), w.length ≤ 10 → ((rlRun w ts).2).length ≤ 10
  | [], _, h => h
  | t :: ts, w, h => by
    simpa [rlRun] using rlRun_length_le ts (rlStep w t).2 (rlStep_length_le w t h)

theorem rlStep_rejected_eq (w : List Nat) (now : Nat)
    (h : (rlStep w now).1 = false) : (rlStep w now).2 = w := by
  by_cases hc : 10 ≤ (w.filter (fun t => now - t < 60000)).length
  · simp [rlStep, adminRateLimit, hc]
  · simp [rlStep, adminRateLimit, hc] at h

/-- C3: for one caller, ten requests whose timestamps lie inside a single
sliding 60-second window are all admitted starting from an empty window and
the eleventh request inside that window is rejected with HTTP 429; a
request made once every stored timestamp is at least 60 seconds old is
admitted again; and the admission decision of every check is taken on the
pruned window, namely it admits exactly when fewer than ten stored entries
are younger than 60 seconds. -/
theorem c3_sliding_window_rate_limit :
    (∀ (ts : List Nat) (t : Nat), ts.length = 10 →
        List.Pairwise WithinWindow (ts ++ [t]) →
        (rlRun [] (ts ++ [t])).1 = List.replicate 10 true ++ [false] ∧
        adminRateLimit (rlRun [] ts).2 t = .rateLimited 429) ∧
    (∀ (w : List Nat) (now : Nat), (∀ s ∈ w, s + 60000 ≤ now) → (rlStep w now).1 = true) ∧
    (∀ (w : List Nat) (now : Nat),
        ((rlStep w now).1 = true ↔ (w.filter (fun t => now - t < 60000)).length < 10)) := by
  refine ⟨?_, ?_, rlStep_fst_iff⟩
  · intro ts t hlen hpw
    have hts : List.Pairwise WithinWindow ts := (List.pairwise_append.mp hpw).1
    have hrun : rlRun [] ts = (List.replicate 10 true, ts) := by
      have := rlRun_admits ts [] (by simpa using hts) (by simp [hlen])
      simpa [hlen] using this
    have hwt : ∀ s ∈ ts, WithinWindow s t := by
      intro s hs
      exact (List.pairwise_append.mp hpw).2.2 s hs t (by simp)
    have hfilter : ts.filter (fun s => t - s < 60000) = ts := by
      rw [List.filter_eq_self]
      intro a ha
      simpa using (hwt a ha).2
    have hlim : adminRateLimit ts t = .rateLimited 429 := by
      simp [adminRateLimit, hfilter, hlen]
    constructor
    · have hstep : rlStep ts t = (false, ts) := by simp [rlStep, hlim]
      rw [rlRun_append]
      simp [hrun, rlRun, hstep]
    · rw [hrun]
      exact hlim
  · intro w now h
    have hfil : w.filter (fun t => now - t < 60000) = [] := by
      rw [List.filter_eq_nil_iff]
      intro a ha
      have := h a ha
      simp
      omega
    rw [rlStep_fst_iff, hfil]
    simp

/-- Witness for C3: eleven requests at the same millisecond admit the first
ten and reject the eleventh, and a request sixty seconds after a lone
stored entry is admitted. -/
theorem c3_sliding_window_rate_limit_witness :
    (rlRun [] (List.replicate 10 5 ++ [5])).1 = List.replicate 10 true ++ [false] ∧
    (rlStep [0] 60000).1 = true :=
  ⟨(c3_sliding_window_rate_limit.1 (List.replicate 10 5) 5 (by decide) (by decide)).1,
   c3_sliding_window_rate_limit.2.1 [0] 60000 (by decide)⟩

/-- C10: the stored window of a caller never exceeds ten timestamps along
any request sequence from the empty initial state, one admitted check keeps
the bound, and a rejected check leaves the stored window unchanged, so a
denied request is never recorded. -/
theorem c10_window_bound_invariant :
    (∀ ts : List Nat, ((rlRun [] ts).2).length ≤ 10) ∧
    (∀ (w : List Nat) (now : Nat), w.length ≤ 10 → ((rlStep w now).2).length ≤ 10) ∧
    (∀ (w : List Nat) (now : Nat), (rlStep w now).1 = false → (rlStep w now).2 = w) :=
  ⟨fun ts => rlRun_length_le ts [] (by simp), rlStep_length_le, rlStep_rejected_eq⟩

/-- Witness for C10: a full window of ten zeros stays within the bound on
the next check, and the rejected eleventh request leaves it unchanged. -/
theorem c10_window_bound_invariant_witness :
    ((rlStep (List.replicate 10 0) 0).2).length ≤ 10 ∧
    (rlStep (List.replicate 10 0) 0).2 = List.replicate 10 0 :=
  ⟨c10_window_bound_invariant.2.1 (List.replicate 10 0) 0 (by decide),
   c10_window_bound_invariant.2.2 (List.replicate 10 0) 0 (by decide)⟩

/-- C4: in the admin decrypt pipeline, a request carrying no bearer
credential at all is answered 401 without attempting decryption; a request
whose extracted credential differs from the configured admin token is
answered 403 without attempting decryption, for every store and key
provider, so neither is ever consulted; and whenever decryption is
attempted the extracted credential equals the configured admin token. -/
theorem c4_admin_auth_gate :
    ∀ (validToken : String) (req : AdminRequest) (window : List Nat) (now : Nat)
      (store : String → Option DbApplication) (kv jsonParse : String → Option String)
      (appId : String),
    (req.authHeader = none → req.tokenQuery = none →
      adminDecryptPipeline validToken req window now store kv jsonParse appId = (401, false)) ∧
    (extractToken req ≠ "" → extractToken req ≠ validToken →
      adminDecryptPipeline validToken req window now store kv jsonParse appId = (403, false)) ∧
    ((adminDecryptPipeline validToken req window now store kv jsonParse appId).2 = true →
      extractToken req = validToken) := by
  intro validToken req window now store kv jsonParse appId
  refine ⟨?_, ?_, ?_⟩
  · intro h1 h2
    have ht : extractToken req = "" := by simp [extractToken, h1, h2]
    simp [adminDecryptPipeline, authenticateAdmin, ht]
  · intro hne hneq
    simp [adminDecryptPipeline, authenticateAdmin, validateAdminToken, hne, hneq]
  · intro h
    by_cases ht : extractToken req = ""
    · simp [adminDecryptPipeline, authenticateAdmin, ht] at h
    · by_cases heq : extractToken req = validToken
      · exact heq
      · simp [adminDecryptPipeline, authenticateAdmin, validateAdminToken, ht, heq] at h

/-- Witness for C4: with the demo token configured, a wrong bearer token is
answered 403 and an absent credential 401, both without decryption. -/
theorem c4_admin_auth_gate_witness :
    adminDecryptPipeline defaultAdminToken ⟨some "Bearer wrong", none⟩ [] 0
        (fun _ => none) (fun _ => none) (fun _ => none) "x" = (403, false) ∧
    adminDecryptPipeline defaultAdminToken ⟨none, none⟩ [] 0
        (fun _ => none) (fun _ => none) (fun _ => none) "x" = (401, false) :=
  ⟨(c4_admin_auth_gate defaultAdminToken ⟨some "Bearer wrong", none⟩ [] 0
      (fun _ => none) (fun _ => none) (fun _ => none) "x").2.1 (by decide) (by decide),
   (c4_admin_auth_gate defaultAdminToken ⟨none, none⟩ [] 0
      (fun _ => none) (fun _ => none) (fun _ => none) "x").1 rfl rfl⟩

/-- C5 (amended): submission validation accepts the GPA strings 4.0 and 0.0
and rejects 4.1 and -0.1 with the error message naming the GPA field, and a
nonempty submitted gpa string is accepted exactly when parseFloat recovers
a value in the closed interval from 0.0 to 4.0; the empty gpa string is
accepted without being parsed because falsy values skip the check. -/
theorem c5_gpa_boundary_validation :
    (validateApplicationData (gpaOnlyData (some "4.0"))).errors = [] ∧
    (validateApplicationData (gpaOnlyData (some "0.0"))).errors = [] ∧
    (validateApplicationData (gpaOnlyData (some "4.1"))).errors =
      ["GPA must be between 0.0 and 4.0"] ∧
    (validateApplicationData (gpaOnlyData (some "-0.1"))).errors =
      ["GPA must be between 0.0 and 4.0"] ∧
    (∀ g : String, g ≠ "" →
      ((validateApplicationData (gpaOnlyData (some g))).isValid = true ↔
        ∃ q, jsParseFloat g = some q ∧
          ((Frac.ofInt 0).le q && q.le (Frac.ofInt 4)) = true)) := by
  refine ⟨by decide, by decide, by decide, by decide, ?_⟩
  intro g hg
  simp [validateApplicationData, gpaOnlyData, jsTruthy, hg, isValidGpa]
  cases hp : jsParseFloat g with
  | none => simp
  | some q => simp

/-- Counterexample for C5 as stated: the empty string submitted as gpa is
accepted by validateApplicationData even though parseFloat does not recover
a number from it, so acceptance is not equivalent to parsing into the
closed interval. -/
theorem c5_gpa_boundary_counterexample :
    (validateApplicationData (gpaOnlyData (some ""))).isValid = true ∧
    jsParseFloat "" = none := by decide

/-- Witness for C5: the acceptance equivalence instantiated at 2.5. -/
theorem c5_gpa_boundary_validation_witness :
    (validateApplicationData (gpaOnlyData (some "2.5"))).isValid = true ↔
      ∃ q, jsParseFloat "2.5" = some q ∧
        ((Frac.ofInt 0).le q && q.le (Frac.ofInt 4)) = true :=
  c5_gpa_boundary_validation.2.2.2.2 "2.5" (by decide)

/-! ## Sorting lemmas for the listing order -/

theorem insertByTime_perm (x : StoredApplication) :
    ∀ l : List StoredApplication, (insertByTime x l).Perm (x :: l)
  | [] => by simp [insertByTime]
  | y :: ys => by
    simp only [insertByTime]
    split
    · exact ((insertByTime_perm x ys).cons y).trans (List.Perm.swap x y ys)
    · exact List.Perm.refl _

theorem pairwise_insertByTime {x : StoredApplication} :
    ∀ {l : List StoredApplication},
      List.Pairwise (fun a b => b.submittedAt ≤ a.submittedAt) l →
      List.Pairwise (fun a b => b.submittedAt ≤ a.submittedAt) (insertByTime x l)
  | [], _ => by simp [insertByTime]
  | y :: ys, h => by
    rw [List.pairwise_cons] at h
    obtain ⟨hy, hys⟩ := h
    simp only [insertByTime]
    split
    · next hlt =>
      rw [List.pairwise_cons]
      refine ⟨?_, pairwise_insertByTime hys⟩
      intro z hz
      rcases List.mem_cons.mp ((insertByTime_perm x ys).mem_iff.mp hz) with hzx | hzys
      · subst hzx
        omega
      · exact hy z hzys
    · next hge =>
      rw [List.pairwise_cons]
      refine ⟨?_, List.Pairwise.cons hy hys⟩
      intro z hz
      rcases List.mem_cons.mp hz with hzy | hzys
      · subst hzy
        omega
      · have h1 := hy z hzys
        omega

theorem sortByTimeDesc_sorted :
    ∀ l : List StoredApplication,
      List.Pairwise (fun a b => b.submittedAt ≤ a.submittedAt) (sortByTimeDesc l)
  | [] => by simp [sortByTimeDesc]
  | x :: xs => pairwise_insertByTime (sortByTimeDesc_sorted xs)

theorem sortByTimeDesc_perm :
    ∀ l : List StoredApplication, (sortByTimeDesc l).Perm l
  | [] => List.Perm.refl _
  | x :: xs =>
    (insertByTime_perm x (sortByTimeDesc xs)).trans ((sortByTimeDesc_perm xs).cons x)

theorem filter_insertByTime (x : StoredApplication) (t : Nat) :
    ∀ l : List StoredApplication,
      (insertByTime x l).filter (fun a => a.submittedAt == t) =
        if x.submittedAt == t then x :: l.filter (fun a => a.submittedAt == t)
        else l.filter (fun a => a.submittedAt == t)
  | [] => by
    by_cases h : x.submittedAt = t <;>
      simp [insertByTime, List.filter_cons, beq_iff_eq, h]
  | y :: ys => by
    by_cases hlt : x.submittedAt < y.submittedAt
    · have hins : insertByTime x (y :: ys) = y :: insertByTime x ys := by
        simp [insertByTime, hlt]
      rw [hins]
      by_cases hx : x.submittedAt = t
      · have hyne : ¬ y.submittedAt = t := by omega
        simp [List.filter_cons, beq_iff_eq, hx, hyne, filter_insertByTime x t ys]
      · by_cases hyt : y.submittedAt = t <;>
          simp [List.filter_cons, beq_iff_eq, hx, hyt, filter_insertByTime x t ys]
    · have hins : insertByTime x (y :: ys) = x :: y :: ys := by
        simp [insertByTime, hlt]
      rw [hins]
      by_cases hx : x.submittedAt = t <;> simp [List.filter_cons, beq_iff_eq, hx]

theorem filter_sortByTimeDesc (t : Nat) :
    ∀ l : List StoredApplication,
      (sortByTimeDesc l).filter (fun a => a.submittedAt == t) =
        l.filter (fun a => a.submittedAt == t)
  | [] => rfl
  | x :: xs => by
    rw [sortByTimeDesc, filter_insertByTime x t (sortByTimeDesc xs)]
    by_cases hx : x.submittedAt = t <;>
      simp [List.filter_cons, beq_iff_eq, hx, filter_sortByTimeDesc t xs]

/-- C6 (amended): the listing returns the stored submissions ordered by
submittedAt descending as a permutation of the store, and submissions with
equal timestamps keep their relative insertion (creation) order: the
subsequence at every fixed timestamp is unchanged.  The tie order is the
insertion order of the in-memory map, not an order determined by id. -/
theorem c6_listing_order :
    ∀ apps : List StoredApplication,
      List.Pairwise (fun a b => b.submittedAt ≤ a.submittedAt) (getAllApplications apps) ∧
      (getAllApplications apps).Perm apps ∧
      (∀ t : Nat, (getAllApplications apps).filter (fun a => a.submittedAt == t) =
        apps.filter (fun a => a.submittedAt == t)) :=
  fun apps =>
    ⟨sortByTimeDesc_sorted apps, sortByTimeDesc_perm apps,
     fun t => filter_sortByTimeDesc t apps⟩

/-- Counterexample for C6 as stated: two equal-timestamp submissions come
back in insertion order, so two stores holding the same two records in
different creation orders list them in different orders; the tie order is
therefore not determined by id. -/
theorem c6_listing_order_counterexample :
    ((getAllApplications [⟨"b", "e1", "i1", 100⟩, ⟨"a", "e2", "i2", 100⟩]).map
        (fun a => a.id) = ["b", "a"]) ∧
    ((getAllApplications [⟨"a", "e2", "i2", 100⟩, ⟨"b", "e1", "i1", 100⟩]).map
        (fun a => a.id) = ["a", "b"]) := by decide

/-- C1: with five stored ids of which the third holds corrupted ciphertext,
the batch endpoint reports five successes, zero failures and total five,
even though the individual decrypt of the corrupted id is the 500 failure
response.  The controller catches every error and reports it only through
the stub response object the route discards, so allSettled never observes a
rejection and the corrupted id is counted as a success rather than as a
failure with reason AuthenticationFailure. -/
theorem c1_batch_corruption_miscounted :
    decryptBatch c1Store c1Kv c1Parse ["a1", "a2", "a3", "a4", "a5"] =
      { successful := 5, failed := 0, total := 5 } ∧
    decryptApplication c1Store c1Kv c1Parse "a3" = .decryptFailed ∧
    (decryptApplication c1Store c1Kv c1Parse "a3").status = 500 := by
  decide

/-- C2: for every nonempty id list the batch result partitions the input,
successes plus failures equal the number of submitted ids and the total
field equals it too, and every id is settled independently: the results are
exactly the per-id outcomes of decryptApplication in input order, so no
failure aborts or blocks the other ids. -/
theorem c2_batch_partition :
    ∀ (store : String → Option DbApplication) (kv jsonParse : String → Option String)
      (ids : List String), ids ≠ [] →
      (decryptBatch store kv jsonParse ids).successful +
          (decryptBatch store kv jsonParse ids).failed = ids.length ∧
      (decryptBatch store kv jsonParse ids).total = ids.length ∧
      decryptBatchResults store kv jsonParse ids =
        ids.map (fun id => Settled.fulfilled (decryptApplication store kv jsonParse id)) := by
  intro store kv jsonParse ids _
  refine ⟨?_, rfl, rfl⟩
  have h := length_filter_add_length_filter_not
    (fun r : Settled DecryptResult => r.isFulfilled)
    (decryptBatchResults store kv jsonParse ids)
  simpa [decryptBatch, decryptBatchResults] using h

/-- Witness for C2: a singleton batch over an empty store partitions into
one success plus zero failures. -/
theorem c2_batch_partition_witness :
    (decryptBatch (fun _ => none) (fun _ => none) (fun _ => none) ["x"]).successful +
        (decryptBatch (fun _ => none) (fun _ => none) (fun _ => none) ["x"]).failed = 1 :=
  (c2_batch_partition (fun _ => none) (fun _ => none) (fun _ => none) ["x"] (by decide)).1

/-- C7: every successful admin decrypt returns the view built from the
stored row and the decrypted data, whose keys are exactly the cleartext
metadata plus decryptedData; the keys never include encrypted_data or iv,
and the view carries the id, the createdAt timestamp and the decrypted
payload of that row. -/
theorem c7_view_excludes_ciphertext :
    ∀ (store : String → Option DbApplication) (kv jsonParse : String → Option String)
      (id : String) (view : List (String × String)),
      decryptApplication store kv jsonParse id = .ok view →
      ∃ application d, store id = some application ∧ view = decryptedView application d ∧
        view.map Prod.fst =
          ["id", "name", "email", "phone", "course", "department", "gpa",
           "documentName", "createdAt", "decryptedData"] ∧
        "encrypted_data" ∉ view.map Prod.fst ∧
        "iv" ∉ view.map Prod.fst ∧
        view.lookup "id" = some application.id ∧
        view.lookup "createdAt" = some (toString application.created_at) ∧
        view.lookup "decryptedData" = some d := by
  intro store kv jsonParse id view h
  simp only [decryptApplication] at h
  split at h
  · exact absurd h (by simp)
  · next application hst =>
    split at h
    · exact absurd h (by simp)
    · next ed hed =>
      split at h
      · exact absurd h (by simp)
      · split at h
        · exact absurd h (by simp)
        · next decryptedText hkv =>
          split at h
          · exact absurd h (by simp)
          · next d hjp =>
            have hv : view = decryptedView application d := by
              cases h
              rfl
            subst hv
            refine ⟨application, d, hst, rfl, rfl, ?_, ?_, rfl, rfl, rfl⟩
            · rw [show (decryptedView application d).map Prod.fst =
                ["id", "name", "email", "phone", "course", "department", "gpa",
                 "documentName", "createdAt", "decryptedData"] from rfl]
              decide
            · rw [show (decryptedView application d).map Prod.fst =
                ["id", "name", "email", "phone", "course", "department", "gpa",
                 "documentName", "createdAt", "decryptedData"] from rfl]
              decide

/-- Witness for C7: the view of the one-row store never carries the
ciphertext or iv columns. -/
theorem c7_view_excludes_ciphertext_witness :
    ∃ application d, c7Store "a" = some application ∧
      decryptedView c7App "P" = decryptedView application d ∧
      (decryptedView c7App "P").map Prod.fst =
        ["id", "name", "email", "phone", "course", "department", "gpa",
         "documentName", "createdAt", "decryptedData"] ∧
      "encrypted_data" ∉ (decryptedView c7App "P").map Prod.fst ∧
      "iv" ∉ (decryptedView c7App "P").map Prod.fst ∧
      (decryptedView c7App "P").lookup "id" = some application.id ∧
      (decryptedView c7App "P").lookup "createdAt" = some (toString application.created_at) ∧
      (decryptedView c7App "P").lookup "decryptedData" = some d :=
  c7_view_excludes_ciphertext c7Store c7Kv c7Parse "a" (decryptedView c7App "P") (by decide)

/-- Counterexample for C8 as stated: the creation route accepts a
caller-supplied nonce and stores it verbatim, so a submission whose stored
nonce originated from the caller is created. -/
theorem c8_caller_nonce_counterexample :
    postApplication "id-1" 1000
        { encryptedData := some "ZW5j", iv := some "Y2FsbGVyLWl2" } =
      .created 201
        { id := "id-1", encryptedData := "ZW5j", iv := "Y2FsbGVyLWl2",
          submittedAt := 1000 } := by
  decide

/-- C8 (amended): the nonce travels with the request instead of being
generated inside the encrypting backend: server-side validation demands a
caller-supplied iv (a falsy iv is a validation error), and for every
nonempty ciphertext and nonce the creation route stores the caller-supplied
nonce verbatim in the new submission, so stored nonces originate from the
caller. -/
theorem c8_caller_supplied_nonce :
    (∀ data : SubmissionData, jsTruthy data.iv = false →
      "Initialization vector (IV) is required" ∈ (validateApplicationData data).errors) ∧
    (∀ (freshId : String) (nowMs : Nat) (ed iv : String), ed ≠ "" → iv ≠ "" →
      postApplication freshId nowMs { encryptedData := some ed, iv := some iv } =
        .created 201
          { id := freshId, encryptedData := ed, iv := iv, submittedAt := nowMs }) := by
  constructor
  · intro data hiv
    simp [validateApplicationData, hiv]
  · intro freshId nowMs ed iv hed hiv
    simp [postApplication, createApplication, hed, hiv]

/-- Witness for C8: a concrete caller nonce is stored verbatim. -/
theorem c8_caller_supplied_nonce_witness :
    postApplication "id-2" 2000
        { encryptedData := some "ZW5j", iv := some "aXYtZnJvbS1jYWxsZXI=" } =
      .created 201
        { id := "id-2", encryptedData := "ZW5j", iv := "aXYtZnJvbS1jYWxsZXI=",
          submittedAt := 2000 } :=
  c8_caller_supplied_nonce.2 "id-2" 2000 "ZW5j" "aXYtZnJvbS1jYWxsZXI=" (by decide) (by decide)

/-- Counterexample for C9 as stated: the statistics computation reads the
wall clock for its recent-application count, so two runs over the identical
record sequence at different times disagree on recentApplications. -/
theorem c9_stats_clock_counterexample :
    (getApplicationStats [c9App] 604800000).recentApplications = 1 ∧
    (getApplicationStats [c9App] 604800101).recentApplications = 0 := by
  decide

/-- C9 (amended): getApplicationStats is a pure function of the record
sequence and the clock value it reads: total, department grouping, GPA
distribution and mean GPA are identical across runs at any two clock
values and the collection is never mutated, while the recent-application
count equals the number of records younger than one week relative to the
clock value of the run. -/
theorem c9_stats_determinism :
    ∀ (apps : List DbApplication) (n1 n2 : Int),
      (getApplicationStats apps n1).totalApplications =
        (getApplicationStats apps n2).totalApplications ∧
      (getApplicationStats apps n1).departments = (getApplicationStats apps n2).departments ∧
      (getApplicationStats apps n1).gpaDistribution =
        (getApplicationStats apps n2).gpaDistribution ∧
      (getApplicationStats apps n1).averageGpa = (getApplicationStats apps n2).averageGpa ∧
      (getApplicationStats apps n1).recentApplications =
        (apps.filter (fun app => n1 - 604800000 < app.created_at)).length :=
  fun _ _ _ => ⟨rfl, rfl, rfl, rfl, rfl⟩
